import Mathlib

/-!
Shallow embedding of the ESP32-MQTT-WOL device liveness and wake
coordination engine: the WoL device registry (`src/wol_manager.c`) and the
continuous ping scheduler (`src/ping_manager.c`).  Machine integers are
modelled as `Nat` with an explicit `% 2^32` where the C code performs
32-bit arithmetic.  The FreeRTOS mutexes serialise every operation, so the
registry operations are modelled as pure state transformers; MQTT
publications and probe invocations are returned as explicit lists of
events.
-/

namespace WolSpec

/-- ESP-IDF result codes used by the repository. -/
inductive EspErr where
  | ok
  | fail
  | errInvalidArg
  | errNoMem
  | errNotFound
  | errInvalidState
  | errTimeout
deriving DecidableEq, Repr

/-- `device_status_t` from `wol_manager.h`. -/
inductive DeviceStatus where
  | unknown
  | online
  | offline
  | waking
deriving DecidableEq, Repr

/-- `MAX_DEVICES` from `wol_manager.h`. -/
def MAX_DEVICES : Nat := 20

/-- `2^32`, the modulus of the `uint32_t` arithmetic in the C sources. -/
def UINT32_MOD : Nat := 4294967296

/-- `wol_device_t` from `wol_manager.h`. -/
structure WolDevice where
  name : String
  ip_address : String
  mac_address : List Nat
  description : String
  status : DeviceStatus
  last_ping_time : Nat
  enabled : Bool
  wol_port : Nat
deriving DecidableEq, Repr

/-- An MQTT publication (`mqtt_publish(topic, message)`). -/
structure MqttMsg where
  topic : String
  payload : String
deriving DecidableEq, Repr

/-- Replace the element at index `i` by `f` of it; elsewhere unchanged.
Models an in-place write to `devices[i]` / `ping_targets[i]`. -/
def updateAt {α : Type} : List α → Nat → (α → α) → List α
  | [], _, _ => []
  | a :: l, 0, f => f a :: l
  | a :: l, i + 1, f => a :: updateAt l i f

/-- `wol_get_status_string` from `wol_manager.c`. -/
def wol_get_status_string : DeviceStatus → String
  | .online => "online"
  | .offline => "offline"
  | .waking => "waking"
  | .unknown => "unknown"

/-- The JSON message built by `wol_update_device_status`. -/
def statusPayload (name status ip : String) (ts : Nat) : String :=
  "\x7b\"device\":\"" ++ name ++ "\",\"status\":\"" ++ status ++
    "\",\"ip\":\"" ++ ip ++ "\",\"timestamp\":" ++ toString ts ++ "\x7d"

/-- The JSON message built by `wol_wake_device` after a successful send. -/
def wakePayload (name : String) (ts : Nat) : String :=
  "\x7b\"device\":\"" ++ name ++ "\",\"action\":\"wake_sent\",\"timestamp\":" ++
    toString ts ++ "\x7d"

/-- `wol_add_device` from `wol_manager.c`: a colliding name updates the
existing entry's address/mac/description in place; otherwise a fresh entry
is appended when the registry is below `MAX_DEVICES`, else
`ESP_ERR_NO_MEM`. `descr` is `Option` because the C pointer may be NULL. -/
def wol_add_device (devs : List WolDevice) (name ip : String) (mac : List Nat)
    (descr : Option String) : EspErr × List WolDevice :=
  match devs.findIdx? (fun d => d.name == name) with
  | some i =>
      (EspErr.ok, updateAt devs i (fun d =>
        { d with ip_address := ip, mac_address := mac,
                 description := descr.getD d.description }))
  | none =>
      if MAX_DEVICES ≤ devs.length then
        (EspErr.errNoMem, devs)
      else
        let fresh : WolDevice :=
          { name := name, ip_address := ip, mac_address := mac,
            description := descr.getD "",
            status := DeviceStatus.unknown, last_ping_time := 0,
            enabled := true, wol_port := 9 }
        (EspErr.ok, devs ++ [fresh])

/-- `wol_remove_device` from `wol_manager.c`: shift-delete the first entry
with the given name, `ESP_ERR_NOT_FOUND` if absent. -/
def wol_remove_device (devs : List WolDevice) (name : String) :
    EspErr × List WolDevice :=
  match devs.findIdx? (fun d => d.name == name) with
  | some i => (EspErr.ok, devs.eraseIdx i)
  | none => (EspErr.errNotFound, devs)

/-- `wol_set_device_enabled` from `wol_manager.c`. -/
def wol_set_device_enabled (devs : List WolDevice) (name : String) (b : Bool) :
    EspErr × List WolDevice :=
  match devs.findIdx? (fun d => d.name == name) with
  | some i => (EspErr.ok, updateAt devs i (fun d => { d with enabled := b }))
  | none => (EspErr.errNotFound, devs)

/-- Result of `wol_update_device_status`: error code, new registry, and the
list of MQTT publications performed. -/
structure UpdateResult where
  err : EspErr
  devices : List WolDevice
  published : List MqttMsg
deriving DecidableEq, Repr

/-- `wol_update_device_status` from `wol_manager.c`: the new status is
`online`/`offline` from the probe's alive flag alone; `last_ping_time` is
refreshed only when alive; the device-status MQTT message is published
exactly when `old_status != devices[i].status`. `now` is the tick-count
timestamp read inside the function. -/
def wol_update_device_status (devs : List WolDevice) (name : String)
    (is_online : Bool) (now : Nat) : UpdateResult :=
  match devs.findIdx? (fun d => d.name == name) with
  | none => ⟨EspErr.errNotFound, devs, []⟩
  | some i =>
    match devs[i]? with
    | none => ⟨EspErr.errNotFound, devs, []⟩
    | some d =>
      let newStatus := if is_online then DeviceStatus.online
                       else DeviceStatus.offline
      let newTime := if is_online then now else d.last_ping_time
      let devs' := updateAt devs i (fun d0 =>
        { d0 with status := newStatus,
                  last_ping_time := if is_online then now
                                    else d0.last_ping_time })
      let msgs := if d.status ≠ newStatus then
          [⟨"esp32/device/" ++ name ++ "/status",
            statusPayload name (wol_get_status_string newStatus)
              d.ip_address newTime⟩]
        else []
      ⟨EspErr.ok, devs', msgs⟩

/-- The parameters of the UDP datagram handed to the transport by
`wol_send_packet`: payload bytes, destination port (`htons(9)`), and the
`SO_BROADCAST` / `SOCK_DGRAM` socket configuration. -/
structure UdpSend where
  payload : List Nat
  port : Nat
  broadcast : Bool
  sock_dgram : Bool
deriving DecidableEq, Repr

/-- The magic packet built by `wol_send_packet`: six `0xFF` bytes followed
by the 6-byte hardware address repeated sixteen times. -/
def buildMagicPacket (mac : List Nat) : List Nat :=
  List.replicate 6 0xFF ++ (List.replicate 16 mac).flatten

/-- `wol_send_packet` from `wol_manager.c`, as the datagram it hands to the
transport. -/
def wol_send_packet (mac : List Nat) : UdpSend :=
  { payload := buildMagicPacket mac, port := 9,
    broadcast := true, sock_dgram := true }

/-- Result of `wol_wake_device`: error code, new registry, MQTT
publications, and the datagram handed to the transport (if any). -/
structure WakeResult where
  err : EspErr
  devices : List WolDevice
  published : List MqttMsg
  sent : Option UdpSend
deriving DecidableEq, Repr

/-- `wol_wake_device` from `wol_manager.c`: `ESP_ERR_NOT_FOUND` for an
absent name, `ESP_ERR_INVALID_STATE` for a disabled device (registry
untouched), otherwise status is set to `waking` before the broadcast is
attempted.  `sendOk` is the outcome of the socket send inside
`wol_send_packet` (an environment input); on failure the error is returned
but the `waking` status is not rolled back. -/
def wol_wake_device (devs : List WolDevice) (name : String) (sendOk : Bool)
    (now : Nat) : WakeResult :=
  match devs.findIdx? (fun d => d.name == name) with
  | none => ⟨EspErr.errNotFound, devs, [], none⟩
  | some i =>
    match devs[i]? with
    | none => ⟨EspErr.errNotFound, devs, [], none⟩
    | some d =>
      if d.enabled then
        let devs' := updateAt devs i (fun d0 =>
          { d0 with status := DeviceStatus.waking })
        if sendOk then
          ⟨EspErr.ok, devs',
            [⟨"esp32/wol/" ++ name ++ "/status", wakePayload name now⟩],
            some (wol_send_packet d.mac_address)⟩
        else
          ⟨EspErr.fail, devs', [], some (wol_send_packet d.mac_address)⟩
      else
        ⟨EspErr.errInvalidState, devs, [], none⟩

/-- `wol_get_device` from `wol_manager.c`: the C function returns
`&devices[i]`, a pointer into the registry's own storage, modelled as the
index of the first entry with the given name (`none` for NULL). -/
def wol_get_device (devs : List WolDevice) (name : String) : Option Nat :=
  devs.findIdx? (fun d => d.name == name)

/-- Modelled from the spec: `get(name) -> Target snapshot | NotFound`
"returns a copy, not a live reference".  This is the spec's version of the
getter, to be compared with `wol_get_device` above (the code of
`wol_get_device` returns a live pointer instead). -/
def wol_get_device_snapshot (devs : List WolDevice) (name : String) :
    Option WolDevice :=
  devs.find? (fun d => d.name == name)

/-- Reading through the pointer returned by `wol_get_device` at a possibly
later registry state. -/
def derefDevice (devs : List WolDevice) (i : Nat) : Option WolDevice :=
  devs[i]?

/-- The registry mutations of `wol_manager.c`, for reachability. -/
inductive WolOp where
  | add (name ip : String) (mac : List Nat) (descr : Option String)
  | remove (name : String)
  | setEnabled (name : String) (b : Bool)
  | updateStatus (name : String) (isOnline : Bool) (now : Nat)
  | wake (name : String) (sendOk : Bool) (now : Nat)

/-- Apply one registry mutation. -/
def applyOp (devs : List WolDevice) : WolOp → List WolDevice
  | .add n ip mac d => (wol_add_device devs n ip mac d).2
  | .remove n => (wol_remove_device devs n).2
  | .setEnabled n b => (wol_set_device_enabled devs n b).2
  | .updateStatus n o now => (wol_update_device_status devs n o now).devices
  | .wake n ok now => (wol_wake_device devs n ok now).devices

/-- Apply a sequence of registry mutations. -/
def applyOps (devs : List WolDevice) (ops : List WolOp) : List WolDevice :=
  ops.foldl applyOp devs

/-- `wol_manager_init` / `wol_load_device_config` from `wol_manager.c`:
start from a cleared registry and add the three seed devices. -/
def wol_manager_init : List WolDevice :=
  let mac1 : List Nat := [0xC0, 0x18, 0x50, 0xAC, 0xE1, 0xA5]
  let mac2 : List Nat := [0x00, 0x50, 0x56, 0xAB, 0xCD, 0xEF]
  let d1 := (wol_add_device [] "server1" "192.168.0.111" mac1
    (some "Main Server")).2
  let d2 := (wol_add_device d1 "desktop1" "192.168.0.112" mac2
    (some "Development Desktop")).2
  (wol_add_device d2 "nas1" "192.168.0.2" mac1
    (some "Network Attached Storage")).2

/-! ## Ping manager (`src/ping_manager.c`) -/

/-- `PING_MAX_TARGETS` from `ping_manager.h`. -/
def PING_MAX_TARGETS : Nat := 10

/-- `ping_target_t` from `ping_manager.h`.  A slot with an empty
`ip_address` is a free slot of the fixed-size table. -/
structure PingTarget where
  ip_address : String
  interval_ms : Nat
  timeout_ms : Nat
  count : Nat
  enabled : Bool
  last_ping_time : Nat
  success_count : Nat
  fail_count : Nat
deriving DecidableEq, Repr

/-- The all-zero slot produced by `memset` (a free slot). -/
def emptyTarget : PingTarget :=
  { ip_address := "", interval_ms := 0, timeout_ms := 0, count := 0,
    enabled := false, last_ping_time := 0, success_count := 0,
    fail_count := 0 }

/-- `find_free_target_slot` from `ping_manager.c`: first slot whose stored
IP string is empty. -/
def find_free_target_slot (targets : List PingTarget) : Option Nat :=
  targets.findIdx? (fun t => t.ip_address == "")

/-- The ping commands of `ping_cmd_type_t` that mutate the target table
(`PING_CMD_STOP_ALL` only stops the task). -/
inductive PingCmd where
  | addTarget (t : PingTarget)
  | removeTarget (idx : Nat)
  | updateTarget (idx : Nat) (t : PingTarget)
  | enableTarget (idx : Nat)
  | disableTarget (idx : Nat)

/-- `execute_ping_command` from `ping_manager.c` (the mutex-guarded switch
over the command type).  Indices are `Nat`, so the C's `>= 0` guard is
implicit. -/
def execute_ping_command (targets : List PingTarget) :
    PingCmd → EspErr × List PingTarget
  | .addTarget t =>
    match find_free_target_slot targets with
    | some slot =>
        (EspErr.ok, updateAt targets slot (fun _ =>
          { t with enabled := true, last_ping_time := 0,
                   success_count := 0, fail_count := 0 }))
    | none => (EspErr.errNoMem, targets)
  | .removeTarget idx =>
    if idx < PING_MAX_TARGETS then
      match targets[idx]? with
      | some t =>
        if t.ip_address ≠ "" then
          (EspErr.ok, updateAt targets idx (fun _ => emptyTarget))
        else (EspErr.ok, targets)
      | none => (EspErr.ok, targets)
    else (EspErr.errInvalidArg, targets)
  | .updateTarget idx t =>
    if idx < PING_MAX_TARGETS then
      match targets[idx]? with
      | some cur =>
        if cur.ip_address ≠ "" then
          (EspErr.ok, updateAt targets idx (fun c =>
            { c with
                interval_ms := if 0 < t.interval_ms then t.interval_ms
                               else c.interval_ms,
                timeout_ms := if 0 < t.timeout_ms then t.timeout_ms
                              else c.timeout_ms,
                count := if 0 < t.count then t.count else c.count }))
        else (EspErr.ok, targets)
      | none => (EspErr.ok, targets)
    else (EspErr.errInvalidArg, targets)
  | .enableTarget idx =>
    if idx < PING_MAX_TARGETS then
      (EspErr.ok, updateAt targets idx (fun c => { c with enabled := true }))
    else (EspErr.errInvalidArg, targets)
  | .disableTarget idx =>
    if idx < PING_MAX_TARGETS then
      (EspErr.ok, updateAt targets idx (fun c => { c with enabled := false }))
    else (EspErr.errInvalidArg, targets)

/-- `ping_end_cb` from `ping_manager.c`: one completed probe bumps exactly
one of the two `uint32_t` counters, with 32-bit wrap-around. -/
def ping_end_cb (t : PingTarget) (received : Nat) : PingTarget :=
  if 0 < received then
    { t with success_count := (t.success_count + 1) % UINT32_MOD }
  else
    { t with fail_count := (t.fail_count + 1) % UINT32_MOD }

/-- A sequence of completed probe outcomes applied to one target
(`true` = at least one reply received). -/
def applyProbes (t : PingTarget) (rs : List Bool) : PingTarget :=
  rs.foldl (fun s r => ping_end_cb s (if r then 1 else 0)) t

/-- `successCount + failCount`. -/
def sumCounts (t : PingTarget) : Nat := t.success_count + t.fail_count

/-- The `esp_ping_config_t` built by `perform_single_ping`. -/
structure ProbeConfig where
  target_ip : String
  count : Nat
  interval_ms : Nat
  timeout_ms : Nat
  data_size : Nat
deriving DecidableEq, Repr

/-- The probe session configuration `perform_single_ping` creates for a
target: the target's own `count` and `timeout_ms`, fixed 1000 ms
inter-packet interval and 64-byte payload. -/
def perform_single_ping_config (t : PingTarget) : ProbeConfig :=
  { target_ip := t.ip_address, count := t.count, interval_ms := 1000,
    timeout_ms := t.timeout_ms, data_size := 64 }

/-- The scheduling predicate of `ping_task`: the slot is enabled, its IP
string is non-empty, and `now - last_ping_time` (µs) has reached
`interval_ms * 1000` — computed, as in the C, in `uint32_t`, hence the
`% 2^32`. -/
def shouldProbe (now : Nat) (t : PingTarget) : Bool :=
  t.enabled && !(t.ip_address.length == 0) &&
    decide ((t.interval_ms * 1000) % UINT32_MOD ≤ now - t.last_ping_time)

/-- One pass of the target-scan loop in `ping_task`: the indices and probe
configurations of the probes issued this tick. -/
def ping_task_tick (now : Nat) (targets : List PingTarget) :
    List (Nat × ProbeConfig) :=
  (List.range PING_MAX_TARGETS).filterMap (fun i =>
    match targets[i]? with
    | some t =>
      if shouldProbe now t then some (i, perform_single_ping_config t)
      else none
    | none => none)

/-- `ping_manager_get_target_stats` from `ping_manager.c`: bounds-check the
index, then `memcpy` the slot into the caller's buffer — i.e. return the
slot's value — when the slot is occupied. -/
def ping_manager_get_target_stats (targets : List PingTarget) (idx : Nat) :
    Option PingTarget :=
  if idx < PING_MAX_TARGETS then
    match targets[idx]? with
    | some t => if t.ip_address ≠ "" then some t else none
    | none => none
  else none

/-! ## Concrete example states used to exercise the model -/

/-- An enabled, online device (the seed device `server1`). -/
def demoServer : WolDevice :=
  { name := "server1", ip_address := "192.168.0.111",
    mac_address := [0xC0, 0x18, 0x50, 0xAC, 0xE1, 0xA5],
    description := "Main Server", status := DeviceStatus.online,
    last_ping_time := 5, enabled := true, wol_port := 9 }

/-- A disabled device, as in the spec's `wake("printer")` scenario. -/
def demoPrinter : WolDevice :=
  { name := "printer", ip_address := "192.168.0.50",
    mac_address := [1, 2, 3, 4, 5, 6],
    description := "Printer", status := DeviceStatus.offline,
    last_ping_time := 0, enabled := false, wol_port := 9 }

/-- An enabled device currently in the transient `waking` state. -/
def demoWaking : WolDevice :=
  { name := "desktop1", ip_address := "192.168.0.112",
    mac_address := [0x00, 0x50, 0x56, 0xAB, 0xCD, 0xEF],
    description := "Development Desktop", status := DeviceStatus.waking,
    last_ping_time := 0, enabled := true, wol_port := 9 }

/-- A small example registry. -/
def demoRegistry : List WolDevice := [demoServer, demoPrinter, demoWaking]

/-- A registry holding `MAX_DEVICES` entries with pairwise distinct names. -/
def fullRegistry : List WolDevice :=
  (List.range MAX_DEVICES).map (fun k => { demoServer with name := "dev" ++ toString k })

/-- A ping table whose `PING_MAX_TARGETS` slots are all occupied. -/
def fullPingTable : List PingTarget :=
  (List.range PING_MAX_TARGETS).map (fun k =>
    { ip_address := "10.0.0." ++ toString k, interval_ms := 5000,
      timeout_ms := 3000, count := 1, enabled := true,
      last_ping_time := 0, success_count := 0, fail_count := 0 })

/-- A freshly added ping target (counters zero). -/
def freshTarget : PingTarget :=
  { ip_address := "10.0.0.5", interval_ms := 5000, timeout_ms := 3000,
    count := 1, enabled := true, last_ping_time := 0,
    success_count := 0, fail_count := 0 }

/-- A target whose interval (4294968 ms ≈ 49.7 days, a representable
`uint32_t` value) makes `interval_ms * 1000` wrap around 2^32. -/
def overflowTarget : PingTarget := { freshTarget with interval_ms := 4294968 }

/-- A ping table containing only `overflowTarget`. -/
def overflowTable : List PingTarget :=
  overflowTarget :: List.replicate 9 emptyTarget

/-! ## General lemmas about the building blocks -/

theorem updateAt_length {α : Type} (l : List α) (i : Nat) (f : α → α) :
    (updateAt l i f).length = l.length := by
  induction l generalizing i with
  | nil => rfl
  | cons a t ih =>
    cases i with
    | zero => rfl
    | succ j => simp [updateAt, ih]

theorem updateAt_getElem?_self {α : Type} (l : List α) (i : Nat) (f : α → α) :
    (updateAt l i f)[i]? = (l[i]?).map f := by
  induction l generalizing i with
  | nil => rfl
  | cons a t ih =>
    cases i with
    | zero => simp [updateAt]
    | succ j => simpa [updateAt] using ih j

theorem updateAt_getElem?_ne {α : Type} (l : List α) (i j : Nat) (f : α → α)
    (h : i ≠ j) : (updateAt l i f)[j]? = l[j]? := by
  induction l generalizing i j with
  | nil => rfl
  | cons a t ih =>
    cases i with
    | zero =>
      cases j with
      | zero => exact absurd rfl h
      | succ k => simp [updateAt]
    | succ i' =>
      cases j with
      | zero => simp [updateAt]
      | succ k => simpa [updateAt] using ih i' k (by omega)

theorem map_updateAt_eq {α β : Type} (l : List α) (i : Nat) (f : α → α)
    (g : α → β) (h : ∀ a, g (f a) = g a) :
    (updateAt l i f).map g = l.map g := by
  induction l generalizing i with
  | nil => rfl
  | cons a t ih =>
    cases i with
    | zero => simp [updateAt, h]
    | succ j => simp [updateAt, ih]

theorem flatten_replicate_length {α : Type} (n : Nat) (l : List α) :
    ((List.replicate n l).flatten).length = n * l.length := by
  induction n with
  | zero => simp
  | succ m ih =>
    rw [List.replicate_succ]
    simp only [List.flatten_cons, List.length_append, ih]
    ring

theorem flatten_replicate_getElem? {α : Type} (n : Nat) (l : List α) (i : Nat)
    (h : i < n * l.length) :
    ((List.replicate n l).flatten)[i]? = l[i % l.length]? := by
  induction n generalizing i with
  | zero => omega
  | succ m ih =>
    rw [List.replicate_succ, List.flatten_cons]
    have hexp : (m + 1) * l.length = m * l.length + l.length := by ring
    by_cases hi : i < l.length
    · rw [List.getElem?_append, if_pos hi, Nat.mod_eq_of_lt hi]
    · have hle : l.length ≤ i := Nat.le_of_not_lt hi
      rw [List.getElem?_append, if_neg hi, ih (i - l.length) (by omega),
        Nat.mod_eq_sub_mod hle]

theorem find?_eq_getElem?_of_findIdx? {α : Type} (l : List α) (p : α → Bool)
    (i : Nat) (h : l.findIdx? p = some i) : l.find? p = l[i]? := by
  induction l generalizing i with
  | nil => simp at h
  | cons a t ih =>
    rw [List.findIdx?_cons] at h
    by_cases hp : p a
    · simp [hp] at h
      subst h
      simp [List.find?, hp]
    · simp [hp] at h
      obtain ⟨j, hj, rfl⟩ := h
      simp [List.find?, hp, ih j hj]

/-! ## Claim theorems -/

/-- Claim C2: the wake payload constructed by `wol_send_packet` for a 6-byte
hardware address is exactly 102 bytes, bytes 0..5 are `0xFF`, bytes 6..101
are 16 consecutive repetitions of the address, and the datagram is a
connectionless (`SOCK_DGRAM`) broadcast to port 9. -/
theorem wol_send_packet_format (mac : List Nat) (h : mac.length = 6) :
    (wol_send_packet mac).payload.length = 102 ∧
    (∀ k, k < 6 → (wol_send_packet mac).payload[k]? = some 0xFF) ∧
    (∀ r j, r < 16 → j < 6 →
      (wol_send_packet mac).payload[6 + (6 * r + j)]? = mac[j]?) ∧
    (wol_send_packet mac).port = 9 ∧
    (wol_send_packet mac).broadcast = true ∧
    (wol_send_packet mac).sock_dgram = true := by
  refine ⟨?_, ?_, ?_, rfl, rfl, rfl⟩
  · show (buildMagicPacket mac).length = 102
    simp [buildMagicPacket, flatten_replicate_length, h]
  · intro k hk
    show (buildMagicPacket mac)[k]? = some 0xFF
    unfold buildMagicPacket
    rw [List.getElem?_append, if_pos (by simpa using hk)]
    rw [List.getElem?_replicate]
    simp [hk]
  · intro r j hr hj
    show (buildMagicPacket mac)[6 + (6 * r + j)]? = mac[j]?
    unfold buildMagicPacket
    rw [List.getElem?_append, if_neg (by simp)]
    have hidx : 6 + (6 * r + j) - (List.replicate 6 (0xFF : Nat)).length
        = 6 * r + j := by simp
    rw [hidx, flatten_replicate_getElem? 16 mac (6 * r + j) (by rw [h]; omega),
      h]
    congr 1
    omega

/-- Witness for C2 at a concrete hardware address. -/
theorem wol_send_packet_format_witness :
    (wol_send_packet [1, 2, 3, 4, 5, 6]).payload.length = 102 ∧
    (wol_send_packet [1, 2, 3, 4, 5, 6]).payload[0]? = some 0xFF ∧
    (wol_send_packet [1, 2, 3, 4, 5, 6]).payload[101]? = some 6 := by
  have h := wol_send_packet_format [1, 2, 3, 4, 5, 6] (by decide)
  refine ⟨h.1, h.2.1 0 (by decide), ?_⟩
  have h101 := h.2.2.1 15 5 (by decide) (by decide)
  simpa using h101

/-- Claim C1: applying a probe result through `wol_update_device_status`
publishes the device-status MQTT message exactly when the recorded status
actually changed: one publication on a genuine transition, none when the
probe outcome matches the current status. -/
theorem update_status_publish_iff_changed (devs : List WolDevice)
    (name : String) (is_online : Bool) (now : Nat) (i : Nat) (d : WolDevice)
    (hfind : devs.findIdx? (fun x => x.name == name) = some i)
    (hget : devs[i]? = some d) :
    (wol_update_device_status devs name is_online now).err = EspErr.ok ∧
    ((wol_update_device_status devs name is_online now).published.length = 1 ↔
      ¬ d.status = (if is_online then DeviceStatus.online
                    else DeviceStatus.offline)) ∧
    ((wol_update_device_status devs name is_online now).published.length = 0 ↔
      d.status = (if is_online then DeviceStatus.online
                  else DeviceStatus.offline)) ∧
    (∀ m ∈ (wol_update_device_status devs name is_online now).published,
      m.topic = "esp32/device/" ++ name ++ "/status") := by
  unfold wol_update_device_status
  simp only [hfind, hget]
  by_cases hc : d.status = (if is_online then DeviceStatus.online
                            else DeviceStatus.offline)
  · simp [hc]
  · simp [hc]

/-- Witness for C1: an online device reprobed dead publishes exactly one
message; reprobed alive it publishes none. -/
theorem update_status_publish_iff_changed_witness :
    (wol_update_device_status demoRegistry "server1" false 42).published.length
      = 1 ∧
    (wol_update_device_status demoRegistry "server1" true 42).published.length
      = 0 := by
  have h1 := update_status_publish_iff_changed demoRegistry "server1" false 42
    0 demoServer (by decide) (by decide)
  have h2 := update_status_publish_iff_changed demoRegistry "server1" true 42
    0 demoServer (by decide) (by decide)
  exact ⟨h1.2.1.mpr (by decide), h2.2.2.1.mpr (by decide)⟩

/-- Claim C5: the status recorded by `wol_update_device_status` is
determined solely by the probe's alive flag — `online` when alive,
`offline` otherwise — whatever the previous status (including `waking`)
was; `last_ping_time` is refreshed only on an alive result. -/
theorem update_status_from_alive_only (devs : List WolDevice)
    (name : String) (is_online : Bool) (now : Nat) (i : Nat) (d : WolDevice)
    (hfind : devs.findIdx? (fun x => x.name == name) = some i)
    (hget : devs[i]? = some d) :
    (wol_update_device_status devs name is_online now).devices[i]? =
      some { d with
        status := if is_online then DeviceStatus.online
                  else DeviceStatus.offline,
        last_ping_time := if is_online then now else d.last_ping_time } := by
  unfold wol_update_device_status
  simp only [hfind, hget]
  rw [updateAt_getElem?_self, hget]
  cases is_online <;> simp

/-- Witness for C5: the next probe result overwrites a `waking` device with
the probe's outcome. -/
theorem update_status_from_alive_only_witness :
    (wol_update_device_status demoRegistry "desktop1" true 42).devices[2]? =
      some { demoWaking with status := DeviceStatus.online,
                             last_ping_time := 42 } := by
  have h := update_status_from_alive_only demoRegistry "desktop1" true 42 2
    demoWaking (by decide) (by decide)
  simpa using h

/-- Claim C4: `wol_wake_device` returns `ESP_ERR_NOT_FOUND` for an absent
name; for a present but disabled device it returns the disabled-style error
`ESP_ERR_INVALID_STATE` and leaves the registry (status included) entirely
unchanged, attempting no broadcast; only for an enabled present device does
it set the status to `waking` and hand the magic packet to the
transport. -/
theorem wake_device_cases (devs : List WolDevice) (name : String)
    (sendOk : Bool) (now : Nat) :
    (devs.findIdx? (fun x => x.name == name) = none →
      wol_wake_device devs name sendOk now =
        ⟨EspErr.errNotFound, devs, [], none⟩) ∧
    (∀ i d, devs.findIdx? (fun x => x.name == name) = some i →
      devs[i]? = some d → d.enabled = false →
      wol_wake_device devs name sendOk now =
        ⟨EspErr.errInvalidState, devs, [], none⟩) ∧
    (∀ i d, devs.findIdx? (fun x => x.name == name) = some i →
      devs[i]? = some d → d.enabled = true →
      (wol_wake_device devs name sendOk now).devices[i]? =
        some { d with status := DeviceStatus.waking } ∧
      (wol_wake_device devs name sendOk now).sent =
        some (wol_send_packet d.mac_address)) := by
  refine ⟨?_, ?_, ?_⟩
  · intro hnone
    unfold wol_wake_device
    simp only [hnone]
  · intro i d hfind hget hdis
    unfold wol_wake_device
    simp only [hfind, hget, hdis]
    rfl
  · intro i d hfind hget hen
    unfold wol_wake_device
    simp only [hfind, hget, hen]
    cases sendOk <;>
      simp [updateAt_getElem?_self, hget, hen]

/-- Witness for C4: the spec's `wake("printer")` scenario — a disabled
device — returns the disabled error with the registry unchanged, and an
absent name returns not-found. -/
theorem wake_device_cases_witness :
    wol_wake_device demoRegistry "printer" true 7 =
      ⟨EspErr.errInvalidState, demoRegistry, [], none⟩ ∧
    wol_wake_device demoRegistry "ghost" true 7 =
      ⟨EspErr.errNotFound, demoRegistry, [], none⟩ := by
  have h := wake_device_cases demoRegistry "printer" true 7
  have h' := wake_device_cases demoRegistry "ghost" true 7
  exact ⟨h.2.1 1 demoPrinter (by decide) (by decide) (by decide),
    h'.1 (by decide)⟩

/-- Claim C10: when the broadcast transport fails after an enabled device
has been marked `waking`, `wol_wake_device` returns the transport failure
(`ESP_FAIL`) but does not restore the previous status — the device stays
`waking` and no MQTT message is published. -/
theorem wake_device_transport_failure (devs : List WolDevice) (name : String)
    (now : Nat) (i : Nat) (d : WolDevice)
    (hfind : devs.findIdx? (fun x => x.name == name) = some i)
    (hget : devs[i]? = some d) (hen : d.enabled = true) :
    (wol_wake_device devs name false now).err = EspErr.fail ∧
    (wol_wake_device devs name false now).devices[i]? =
      some { d with status := DeviceStatus.waking } ∧
    (wol_wake_device devs name false now).sent =
      some (wol_send_packet d.mac_address) ∧
    (wol_wake_device devs name false now).published = [] := by
  unfold wol_wake_device
  simp only [hfind, hget, hen]
  simp [updateAt_getElem?_self, hget, hen]

/-- Witness for C10: a failing send for the enabled `server1` yields
`ESP_FAIL` yet its recorded status is `waking`. -/
theorem wake_device_transport_failure_witness :
    (wol_wake_device demoRegistry "server1" false 7).err = EspErr.fail ∧
    (wol_wake_device demoRegistry "server1" false 7).devices[0]? =
      some { demoServer with status := DeviceStatus.waking } := by
  have h := wake_device_transport_failure demoRegistry "server1" 7 0
    demoServer (by decide) (by decide) (by decide)
  exact ⟨h.1, h.2.1⟩

/-- Claim C7: with the registry at capacity, adding a new (non-colliding)
entry fails with `ESP_ERR_NO_MEM` and leaves every entry and the count
unchanged — for the device registry (`MAX_DEVICES`) and for the ping
target table (`PING_MAX_TARGETS`, full when no slot's IP is empty). -/
theorem registry_capacity_error :
    (∀ (devs : List WolDevice) (name ip : String) (mac : List Nat)
      (descr : Option String), MAX_DEVICES ≤ devs.length →
      devs.findIdx? (fun d => d.name == name) = none →
      wol_add_device devs name ip mac descr = (EspErr.errNoMem, devs)) ∧
    (∀ (targets : List PingTarget) (t : PingTarget),
      (∀ s ∈ targets, s.ip_address ≠ "") →
      execute_ping_command targets (PingCmd.addTarget t) =
        (EspErr.errNoMem, targets)) := by
  constructor
  · intro devs name ip mac descr hlen hfind
    unfold wol_add_device
    simp only [hfind]
    rw [if_pos hlen]
  · intro targets t hfull
    have hfree : find_free_target_slot targets = none := by
      unfold find_free_target_slot
      rw [List.findIdx?_eq_none_iff]
      intro s hs
      simpa using hfull s hs
    unfold execute_ping_command
    simp only [hfree]

/-- Witness for C7: a 20-entry device registry and a 10-slot-occupied ping
table both reject a fresh add with the capacity error. -/
theorem registry_capacity_error_witness :
    wol_add_device fullRegistry "newdev" "10.0.0.1" [1, 2, 3, 4, 5, 6] none =
      (EspErr.errNoMem, fullRegistry) ∧
    execute_ping_command fullPingTable (PingCmd.addTarget freshTarget) =
      (EspErr.errNoMem, fullPingTable) := by
  constructor
  · exact registry_capacity_error.1 fullRegistry "newdev" "10.0.0.1"
      [1, 2, 3, 4, 5, 6] none (by decide) (by decide)
  · exact registry_capacity_error.2 fullPingTable freshTarget (by decide)

theorem name_not_mem_of_findIdx?_none (devs : List WolDevice) (name : String)
    (h : devs.findIdx? (fun d => d.name == name) = none) :
    name ∉ devs.map WolDevice.name := by
  rw [List.findIdx?_eq_none_iff] at h
  intro hmem
  obtain ⟨d, hd, hdn⟩ := List.mem_map.mp hmem
  have hfalse := h d hd
  rw [hdn] at hfalse
  simp at hfalse

theorem uniq_applyOp (devs : List WolDevice) (op : WolOp)
    (h : (devs.map WolDevice.name).Nodup) :
    ((applyOp devs op).map WolDevice.name).Nodup := by
  cases op with
  | add n ip mac descr =>
    unfold applyOp wol_add_device
    cases hf : devs.findIdx? (fun d => d.name == n) with
    | some i =>
      simp only [hf]
      rw [map_updateAt_eq]
      · exact h
      · intro a; rfl
    | none =>
      by_cases hlen : MAX_DEVICES ≤ devs.length
      · simp only [hf, if_pos hlen]
        exact h
      · simp only [hf, if_neg hlen, List.map_append, List.nodup_append]
        refine ⟨h, by simp, ?_⟩
        intro a ha hb
        simp only [List.map_cons, List.map_nil, List.mem_cons,
          List.not_mem_nil, or_false] at hb
        subst hb
        exact name_not_mem_of_findIdx?_none devs _ hf ha
  | remove n =>
    unfold applyOp wol_remove_device
    cases hf : devs.findIdx? (fun d => d.name == n) with
    | some i =>
      simp only [hf]
      exact ((List.eraseIdx_sublist devs i).map WolDevice.name).nodup h
    | none =>
      simp only [hf]
      exact h
  | setEnabled n b =>
    unfold applyOp wol_set_device_enabled
    cases hf : devs.findIdx? (fun d => d.name == n) with
    | some i =>
      simp only [hf]
      rw [map_updateAt_eq]
      · exact h
      · intro a; rfl
    | none =>
      simp only [hf]
      exact h
  | updateStatus n o now =>
    unfold applyOp wol_update_device_status
    cases hf : devs.findIdx? (fun d => d.name == n) with
    | some i =>
      cases hg : devs[i]? with
      | some d =>
        simp only [hf, hg]
        rw [map_updateAt_eq]
        · exact h
        · intro a; rfl
      | none =>
        simp only [hf, hg]
        exact h
    | none =>
      simp only [hf]
      exact h
  | wake n ok now =>
    unfold applyOp wol_wake_device
    cases hf : devs.findIdx? (fun d => d.name == n) with
    | some i =>
      cases hg : devs[i]? with
      | some d =>
        cases he : d.enabled with
        | false =>
          simp only [hf, hg, he]
          rw [if_neg (by simp)]
          exact h
        | true =>
          simp only [hf, hg, he]
          rw [if_pos trivial]
          have hmap : ((updateAt devs i (fun d0 =>
              { d0 with status := DeviceStatus.waking })).map
                WolDevice.name).Nodup := by
            rw [map_updateAt_eq]
            · exact h
            · intro a; rfl
          cases ok with
          | false =>
            rw [if_neg (by simp)]
            exact hmap
          | true =>
            rw [if_pos rfl]
            exact hmap
      | none =>
        simp only [hf, hg]
        exact h
    | none =>
      simp only [hf]
      exact h

theorem uniq_applyOps (devs : List WolDevice) (ops : List WolOp)
    (h : (devs.map WolDevice.name).Nodup) :
    ((applyOps devs ops).map WolDevice.name).Nodup := by
  induction ops generalizing devs with
  | nil => exact h
  | cons op rest ih => exact ih _ (uniq_applyOp devs op h)

/-- Claim C3: device names stay pairwise distinct in every registry state
reachable from initialization by add/remove/enable/update/wake operations,
and an add whose name collides with an existing entry updates that entry's
address/mac/description in place — same count, same names, all other
entries untouched. -/
theorem registry_names_unique :
    (∀ ops : List WolOp,
      ((applyOps wol_manager_init ops).map WolDevice.name).Nodup) ∧
    (∀ (devs : List WolDevice) (name ip : String) (mac : List Nat)
      (descr : Option String) (i : Nat) (d : WolDevice),
      devs.findIdx? (fun x => x.name == name) = some i →
      devs[i]? = some d →
      (wol_add_device devs name ip mac descr).1 = EspErr.ok ∧
      (wol_add_device devs name ip mac descr).2.length = devs.length ∧
      (wol_add_device devs name ip mac descr).2.map WolDevice.name =
        devs.map WolDevice.name ∧
      (wol_add_device devs name ip mac descr).2[i]? =
        some { d with ip_address := ip, mac_address := mac,
                      description := descr.getD d.description } ∧
      (∀ j, j ≠ i →
        (wol_add_device devs name ip mac descr).2[j]? = devs[j]?)) := by
  constructor
  · intro ops
    exact uniq_applyOps wol_manager_init ops (by decide)
  · intro devs name ip mac descr i d hfind hget
    unfold wol_add_device
    simp only [hfind]
    refine ⟨by trivial, updateAt_length devs i _, ?_, ?_, ?_⟩
    · rw [map_updateAt_eq]
      intro a; rfl
    · rw [updateAt_getElem?_self, hget]
      rfl
    · intro j hj
      exact updateAt_getElem?_ne devs i j _ (fun hij => hj hij.symm)

/-- Witness for C3: uniqueness after re-adding a seed name, and a colliding
add keeping the demo registry's size. -/
theorem registry_names_unique_witness :
    ((applyOps wol_manager_init
        [WolOp.add "server1" "10.0.0.9" [9, 9, 9, 9, 9, 9] none]).map
      WolDevice.name).Nodup ∧
    (wol_add_device demoRegistry "printer" "10.0.0.9" [9, 9, 9, 9, 9, 9]
      (some "p2")).2.length = demoRegistry.length := by
  refine ⟨registry_names_unique.1 _, ?_⟩
  exact (registry_names_unique.2 demoRegistry "printer" "10.0.0.9"
    [9, 9, 9, 9, 9, 9] (some "p2") 1 demoPrinter (by decide) (by decide)).2.1

theorem string_length_eq_zero_iff (s : String) : s.length = 0 ↔ s = "" := by
  constructor
  · intro h
    cases s with
    | mk data =>
      cases data with
      | nil => rfl
      | cons a l => simp [String.length] at h
  · intro h
    subst h
    rfl

/-- Claim C6 (counterexample): with `interval_ms = 4294968` (a legal
`uint32_t` number of milliseconds), `interval_ms * 1000` wraps modulo 2^32
to 704 µs, so `ping_task` issues a probe only 704 µs after the last one —
far less than the configured interval — refuting "a probe is issued only
if the elapsed time is at least its configured interval". -/
theorem ping_tick_interval_overflow_cex :
    ping_task_tick 704 overflowTable =
      [(0, perform_single_ping_config overflowTarget)] ∧
    overflowTarget.enabled = true ∧
    ¬ overflowTarget.ip_address = "" ∧
    704 - overflowTarget.last_ping_time <
      overflowTarget.interval_ms * 1000 := by
  refine ⟨by decide, by decide, by decide, by decide⟩

/-- Claim C6 (amended): on a tick at time `now` (µs), a probe is issued
for slot `i` iff the slot's target is enabled, has a non-empty address,
and `now - last_ping_time ≥ (interval_ms * 1000) mod 2^32` — the
scheduling threshold the C computes in `uint32_t`, which equals the
configured interval whenever `interval_ms ≤ 4294967`.  The issued probe
carries the target's own `timeout_ms` and `count`; a disabled target is
skipped but a disable command leaves its slot in the table. -/
theorem ping_tick_schedule (now : Nat) (targets : List PingTarget) (i : Nat)
    (t : PingTarget) (hi : i < PING_MAX_TARGETS)
    (hg : targets[i]? = some t) :
    ((i, perform_single_ping_config t) ∈ ping_task_tick now targets ↔
      shouldProbe now t = true) ∧
    (∀ c, (i, c) ∈ ping_task_tick now targets →
      c = perform_single_ping_config t) ∧
    (shouldProbe now t = true ↔
      (t.enabled = true ∧ ¬ t.ip_address = "" ∧
        (t.interval_ms * 1000) % UINT32_MOD ≤ now - t.last_ping_time)) ∧
    (t.interval_ms ≤ 4294967 →
      (t.interval_ms * 1000) % UINT32_MOD = t.interval_ms * 1000) ∧
    (perform_single_ping_config t).timeout_ms = t.timeout_ms ∧
    (perform_single_ping_config t).count = t.count ∧
    (t.enabled = false → shouldProbe now t = false) ∧
    ((execute_ping_command targets (PingCmd.disableTarget i)).2.map
        PingTarget.ip_address = targets.map PingTarget.ip_address) := by
  have hmem : ∀ c, (i, c) ∈ ping_task_tick now targets ↔
      (shouldProbe now t = true ∧ c = perform_single_ping_config t) := by
    intro c
    unfold ping_task_tick
    rw [List.mem_filterMap]
    constructor
    · rintro ⟨j, hjr, hj⟩
      cases hjt : targets[j]? with
      | none => rw [hjt] at hj; exact absurd hj (by simp)
      | some t' =>
        rw [hjt] at hj
        dsimp only at hj
        by_cases hsp : shouldProbe now t'
        · rw [if_pos hsp] at hj
          have hji : j = i ∧ perform_single_ping_config t' = c := by
            have := Option.some.inj hj
            exact ⟨congrArg Prod.fst this, congrArg Prod.snd this⟩
          obtain ⟨rfl, hc⟩ := hji
          rw [hg] at hjt
          obtain rfl := (Option.some.inj hjt)
          exact ⟨hsp, hc.symm⟩
        · rw [if_neg hsp] at hj
          exact absurd hj (by simp)
    · rintro ⟨hsp, rfl⟩
      refine ⟨i, List.mem_range.mpr hi, ?_⟩
      rw [hg]
      dsimp only
      rw [if_pos hsp]
  refine ⟨?_, ?_, ?_, ?_, rfl, rfl, ?_, ?_⟩
  · rw [hmem]
    simp
  · intro c hc
    exact ((hmem c).mp hc).2
  · unfold shouldProbe
    rw [Bool.and_eq_true, Bool.and_eq_true]
    constructor
    · rintro ⟨⟨hen, hip⟩, hd⟩
      refine ⟨hen, ?_, of_decide_eq_true hd⟩
      intro hips
      rw [hips] at hip
      simp at hip
    · rintro ⟨hen, hip, hd⟩
      refine ⟨⟨hen, ?_⟩, decide_eq_true hd⟩
      simp only [Bool.not_eq_true']
      rw [beq_eq_false_iff_ne]
      intro hlen
      exact hip ((string_length_eq_zero_iff t.ip_address).mp hlen)
  · intro hsmall
    unfold UINT32_MOD
    omega
  · intro hdis
    unfold shouldProbe
    rw [hdis]
    rfl
  · unfold execute_ping_command
    dsimp only
    rw [if_pos hi]
    dsimp only
    rw [map_updateAt_eq]
    intro a; rfl

/-- Witness for C6 (amended): a due target in slot 0 gets probed with its
own timeout and count. -/
theorem ping_tick_schedule_witness :
    (0, perform_single_ping_config freshTarget) ∈
      ping_task_tick 5000000 (freshTarget :: List.replicate 9 emptyTarget) ∧
    (perform_single_ping_config freshTarget).timeout_ms = 3000 := by
  have h := ping_tick_schedule 5000000
    (freshTarget :: List.replicate 9 emptyTarget) 0 freshTarget
    (by decide) (by decide)
  exact ⟨h.1.mpr (by decide), by decide⟩

/-- Claim C8 (counterexample): `wol_get_device` returns a pointer into the
registry's own storage (modelled as the entry's index), not a snapshot
copy: after a subsequent mutation (disabling `server1`), reading through
the reference returned earlier yields a different value than it did at get
time — refuting "subsequent registry mutations do not alter a value
already returned to the caller". -/
theorem get_device_live_reference_cex :
    wol_get_device demoRegistry "server1" = some 0 ∧
    derefDevice (wol_set_device_enabled demoRegistry "server1" false).2 0 ≠
      derefDevice demoRegistry 0 := by
  refine ⟨by decide, by decide⟩

/-- Claim C8 (amended): `wol_get_device` returns NULL exactly for an
absent name, and otherwise a live reference to the first entry with the
requested name (which agrees with the spec-modelled snapshot at the moment
of the call, but tracks later mutations — see the counterexample); the
ping-side query `ping_manager_get_target_stats` does return a copy: the
slot's value at call time, for an occupied in-range slot. -/
theorem get_device_semantics (devs : List WolDevice) (name : String)
    (targets : List PingTarget) (idx : Nat) :
    (wol_get_device devs name = none ↔ ∀ d ∈ devs, ¬ d.name = name) ∧
    (∀ i, wol_get_device devs name = some i →
      ∃ d, derefDevice devs i = some d ∧ d.name = name ∧
        wol_get_device_snapshot devs name = some d) ∧
    (∀ t, ping_manager_get_target_stats targets idx = some t →
      targets[idx]? = some t ∧ ¬ t.ip_address = "") := by
  refine ⟨?_, ?_, ?_⟩
  · unfold wol_get_device
    rw [List.findIdx?_eq_none_iff]
    constructor
    · intro h d hd
      have := h d hd
      simpa using this
    · intro h d hd
      simpa using h d hd
  · intro i hi
    unfold wol_get_device at hi
    obtain ⟨hlt, hp, _⟩ := List.findIdx?_eq_some_iff_getElem.mp hi
    refine ⟨devs[i], ?_, ?_, ?_⟩
    · exact List.getElem?_eq_getElem hlt
    · simpa using hp
    · unfold wol_get_device_snapshot
      rw [find?_eq_getElem?_of_findIdx? devs _ i hi]
      exact List.getElem?_eq_getElem hlt
  · intro t ht
    unfold ping_manager_get_target_stats at ht
    by_cases hidx : idx < PING_MAX_TARGETS
    · rw [if_pos hidx] at ht
      cases hg : targets[idx]? with
      | none => rw [hg] at ht; exact absurd ht (by simp)
      | some t' =>
        rw [hg] at ht
        dsimp only at ht
        by_cases hip : t'.ip_address = ""
        · rw [if_neg (by simpa using hip)] at ht
          exact absurd ht (by simp)
        · rw [if_pos (by simpa using hip)] at ht
          obtain rfl := Option.some.inj ht
          exact ⟨rfl, hip⟩
    · rw [if_neg hidx] at ht
      exact absurd ht (by simp)

/-- Witness for C8 (amended): looking up `printer` yields the live index 1
whose entry agrees with the snapshot at call time; an occupied ping slot's
stats are the slot's value. -/
theorem get_device_semantics_witness :
    wol_get_device demoRegistry "ghost" = none ∧
    derefDevice demoRegistry 1 = some demoPrinter ∧
    ping_manager_get_target_stats fullPingTable 3 =
      some (fullPingTable.get ⟨3, by decide⟩) := by
  have h := get_device_semantics demoRegistry "ghost" fullPingTable 3
  refine ⟨h.1.mpr (by decide), by decide, ?_⟩
  have h2 := get_device_semantics demoRegistry "printer" fullPingTable 3
  cases hval : ping_manager_get_target_stats fullPingTable 3 with
  | none => exact absurd hval (by decide)
  | some t =>
    obtain ⟨hg, _⟩ := h2.2.2 t hval
    exact hg.symm.trans (by decide)

theorem count_true_add_count_false (rs : List Bool) :
    rs.count true + rs.count false = rs.length := by
  induction rs with
  | nil => rfl
  | cons r rest ih =>
    cases r <;> simp [List.count_cons] <;> omega

theorem count_false_replicate_true (n : Nat) :
    (List.replicate n true).count false = 0 := by
  induction n with
  | zero => rfl
  | succ m ih => simp [List.replicate_succ, List.count_cons, ih]

theorem applyProbes_counts (rs : List Bool) : ∀ (t : PingTarget),
    t.success_count < UINT32_MOD → t.fail_count < UINT32_MOD →
    (applyProbes t rs).success_count =
      (t.success_count + rs.count true) % UINT32_MOD ∧
    (applyProbes t rs).fail_count =
      (t.fail_count + rs.count false) % UINT32_MOD := by
  induction rs with
  | nil =>
    intro t hs hf
    simp [applyProbes, Nat.mod_eq_of_lt hs, Nat.mod_eq_of_lt hf]
  | cons r rest ih =>
    intro t hs hf
    have hM : 0 < UINT32_MOD := by unfold UINT32_MOD; omega
    cases r
    · have hstep : applyProbes t (false :: rest) =
          applyProbes
            { t with fail_count := (t.fail_count + 1) % UINT32_MOD }
            rest := rfl
      rw [hstep]
      obtain ⟨ihs, ihf⟩ := ih
        { t with fail_count := (t.fail_count + 1) % UINT32_MOD } hs
        (Nat.mod_lt _ hM)
      constructor
      · rw [ihs]
        have hc : (false :: rest).count true = rest.count true := by simp
        rw [hc]
      · rw [ihf]
        have hc : (false :: rest).count false = rest.count false + 1 := by
          simp
        rw [hc]
        simp only [UINT32_MOD] at *
        omega
    · have hstep : applyProbes t (true :: rest) =
          applyProbes
            { t with success_count := (t.success_count + 1) % UINT32_MOD }
            rest := rfl
      rw [hstep]
      obtain ⟨ihs, ihf⟩ := ih
        { t with success_count := (t.success_count + 1) % UINT32_MOD }
        (Nat.mod_lt _ hM) hf
      constructor
      · rw [ihs]
        have hc : (true :: rest).count true = rest.count true + 1 := by simp
        rw [hc]
        simp only [UINT32_MOD] at *
        omega
      · rw [ihf]
        have hc : (true :: rest).count false = rest.count false := by simp
        rw [hc]

/-- Claim C9 (counterexample): the probe counters are `uint32_t` and wrap
modulo 2^32.  For the target whose `success_count` has reached
`2^32 - 1` (the value after 2^32 − 1 successful probes of a fresh target),
one further successful probe wraps the counter to 0: the sum
`successCount + failCount` strictly decreases, and that probe does not
increase either counter by one. -/
theorem ping_counter_wrap_cex :
    sumCounts (applyProbes
      { freshTarget with success_count := UINT32_MOD - 1 } [true]) <
      sumCounts { freshTarget with success_count := UINT32_MOD - 1 } ∧
    (applyProbes { freshTarget with success_count := UINT32_MOD - 1 }
      [true]).success_count = 0 := by
  refine ⟨by decide, by decide⟩

/-- Claim C9 (amended): each completed probe bumps exactly one of the two
counters by one modulo 2^32 and leaves the other untouched; consequently,
starting from a fresh target, across any sequence of fewer than 2^32
completed probes the sum `successCount + failCount` equals the number of
probes and never decreases along the sequence (the original claim's
unbounded monotonicity fails only at the 32-bit wrap, see the
counterexample). -/
theorem ping_counters_monotone :
    (∀ (t : PingTarget) (received : Nat),
      (0 < received →
        (ping_end_cb t received).success_count =
          (t.success_count + 1) % UINT32_MOD ∧
        (ping_end_cb t received).fail_count = t.fail_count) ∧
      (received = 0 →
        (ping_end_cb t received).fail_count =
          (t.fail_count + 1) % UINT32_MOD ∧
        (ping_end_cb t received).success_count = t.success_count)) ∧
    (∀ (t : PingTarget) (rs : List Bool),
      t.success_count = 0 → t.fail_count = 0 → rs.length < UINT32_MOD →
      sumCounts (applyProbes t rs) = rs.length) ∧
    (∀ (t : PingTarget) (p q : List Bool),
      t.success_count = 0 → t.fail_count = 0 →
      (p ++ q).length < UINT32_MOD →
      sumCounts (applyProbes t p) ≤ sumCounts (applyProbes t (p ++ q))) := by
  have hM : (0 : Nat) < UINT32_MOD := by decide
  have hsum : ∀ (t : PingTarget) (rs : List Bool),
      t.success_count = 0 → t.fail_count = 0 → rs.length < UINT32_MOD →
      sumCounts (applyProbes t rs) = rs.length := by
    intro t rs hs0 hf0 hlen
    obtain ⟨h1, h2⟩ := applyProbes_counts rs t (by rw [hs0]; exact hM)
      (by rw [hf0]; exact hM)
    have hcc := count_true_add_count_false rs
    have h3 : rs.count true ≤ rs.length := List.count_le_length true rs
    have h4 : rs.count false ≤ rs.length := List.count_le_length false rs
    unfold sumCounts
    rw [h1, h2, hs0, hf0]
    simp only [UINT32_MOD] at *
    omega
  refine ⟨?_, hsum, ?_⟩
  · intro t received
    constructor
    · intro h
      unfold ping_end_cb
      rw [if_pos h]
      exact ⟨rfl, rfl⟩
    · intro h
      unfold ping_end_cb
      rw [if_neg (by omega)]
      exact ⟨rfl, rfl⟩
  · intro t p q hs0 hf0 hlen
    have hp : p.length < UINT32_MOD := by
      rw [List.length_append] at hlen
      omega
    rw [hsum t p hs0 hf0 hp, hsum t (p ++ q) hs0 hf0 hlen,
      List.length_append]
    omega

/-- Witness for C9 (amended): three probes of a fresh target leave the sum
at 3, and one successful probe bumps the success counter to 1. -/
theorem ping_counters_monotone_witness :
    sumCounts (applyProbes freshTarget [true, false, true]) = 3 ∧
    (ping_end_cb freshTarget 1).success_count = 1 := by
  have h := ping_counters_monotone
  refine ⟨h.2.1 freshTarget [true, false, true] rfl rfl (by decide), ?_⟩
  have h2 := (h.1 freshTarget 1).1 (by omega)
  rw [h2.1]
  decide

end WolSpec
